import Mathlib

/-!
# Verification of the BarberPal Web Push delivery subsystem

Shallow embedding of the Web Push core found in
`supabase/functions/send-push-notification/web-push-utils.ts` (the
`sendWebPush` pipeline), the near-duplicate Deno implementation
(`createVapidAuthHeader` / `derToRaw` / `encryptPayload`), and the
fan-out handlers (`index.ts`).

Bytes are modelled as `List Nat` with values < 256 where it matters.
Platform crypto primitives (HKDF-SHA256, AES-128-GCM) are modelled as
explicit function parameters (`CryptoOps`): the properties verified here
concern the byte-level framing, the key-derivation schedule (which salt,
input key material, info string and output length each derivation uses),
and the control flow around the primitives — not the primitives
themselves.  Per-call randomness (`crypto.getRandomValues`, ECDH
key-pair generation) is modelled as explicit per-call inputs.
-/

namespace BarberPush

/-- Byte strings: lists of naturals (each < 256 for genuine byte data). -/
abbrev Bytes := List Nat

/-- `TextEncoder().encode` for the ASCII strings used by the code
(UTF-8 of an ASCII string is its code points). -/
def utf8 (s : String) : Bytes := s.toList.map Char.toNat

/-! ## Base64URL codec (`base64UrlToUint8Array` / `uint8ArrayToBase64Url`) -/

/-- The standard base64 alphabet used by `btoa`/`atob`. -/
def b64Alphabet : List Char :=
  "ABCDEFGHIJKLMNOPQRSTUVWXYZabcdefghijklmnopqrstuvwxyz0123456789+/".toList

/-- Character for a 6-bit value. -/
def encChar (v : Nat) : Char := b64Alphabet.getD v 'A'

def decValAux : List Char → Char → Nat
  | [], _ => 0
  | a :: l, c => if a = c then 0 else decValAux l c + 1

/-- 6-bit value of a base64 character (alphabet position), as `atob` uses. -/
def decVal (c : Char) : Nat := decValAux b64Alphabet c

/-- `btoa` on a byte string: standard base64 with `=` padding,
processing 3 input bytes into 4 output characters. -/
def btoaBytes : Bytes → List Char
  | [] => []
  | [a] => [encChar (a / 4), encChar (a % 4 * 16), '=', '=']
  | [a, b] => [encChar (a / 4), encChar (a % 4 * 16 + b / 16), encChar (b % 16 * 4), '=']
  | a :: b :: c :: t =>
      encChar (a / 4) :: encChar (a % 4 * 16 + b / 16) ::
      encChar (b % 16 * 4 + c / 64) :: encChar (c % 64) :: btoaBytes t

/-- `atob` on well-formed padded base64: 4 characters to 3 bytes,
with `=` padding signalling 1 or 2 bytes in the final group. -/
def atobBytes : List Char → Bytes
  | c1 :: c2 :: c3 :: c4 :: t =>
      if c3 = '=' then [decVal c1 * 4 + decVal c2 / 16]
      else if c4 = '=' then
        [decVal c1 * 4 + decVal c2 / 16, decVal c2 % 16 * 16 + decVal c3 / 4]
      else
        (decVal c1 * 4 + decVal c2 / 16) :: (decVal c2 % 16 * 16 + decVal c3 / 4) ::
        (decVal c3 % 4 * 64 + decVal c4) :: atobBytes t
  | _ => []

/-- The per-character substitution of plus by minus and slash by
underscore performed by the encoder's two global replaces. -/
def toUrlChar (c : Char) : Char := if c = '+' then '-' else if c = '/' then '_' else c

/-- The reverse substitution (minus to plus, underscore to slash)
performed by the decoder's two global replaces. -/
def fromUrlChar (c : Char) : Char := if c = '-' then '+' else if c = '_' then '/' else c

/-- `uint8ArrayToBase64Url`: `btoa`, substitute plus and slash,
strip every equals sign (a global replace by the empty string). -/
def uint8ArrayToBase64Url (b : Bytes) : List Char :=
  ((btoaBytes b).map toUrlChar).filter (fun c => c ≠ '=')

/-- `'='.repeat((4 - (base64.length % 4)) % 4)` re-padding. -/
def padEq (l : List Char) : List Char :=
  l ++ List.replicate ((4 - l.length % 4) % 4) '='

/-- `base64UrlToUint8Array`: substitute `- _` back to `+ /`,
re-pad to a multiple of 4, `atob`. -/
def base64UrlToUint8Array (s : List Char) : Bytes :=
  atobBytes (padEq (s.map fromUrlChar))

/-! ### Round-trip lemmas for the codec -/

lemma b64_char_round : ∀ v, v < 64 → fromUrlChar (toUrlChar (encChar v)) = encChar v := by
  decide

lemma b64_decVal_enc : ∀ v, v < 64 → decVal (encChar v) = v := by decide

lemma b64_enc_ne_pad : ∀ v, v < 64 → toUrlChar (encChar v) ≠ '=' ∧ encChar v ≠ '=' := by
  decide

lemma toUrlChar_fix : toUrlChar '=' = '=' := by decide

lemma padEq_cons4 (c1 c2 c3 c4 : Char) (l : List Char) :
    padEq (c1 :: c2 :: c3 :: c4 :: l) = c1 :: c2 :: c3 :: c4 :: padEq l := by
  unfold padEq
  simp only [List.length_cons, List.cons_append]
  have h : (4 - (l.length + 1 + 1 + 1 + 1) % 4) % 4 = (4 - l.length % 4) % 4 := by omega
  rw [h]

lemma atobBytes_cons4 (c1 c2 c3 c4 : Char) (t : List Char)
    (h3 : c3 ≠ '=') (h4 : c4 ≠ '=') :
    atobBytes (c1 :: c2 :: c3 :: c4 :: t) =
      (decVal c1 * 4 + decVal c2 / 16) :: (decVal c2 % 16 * 16 + decVal c3 / 4) ::
      (decVal c3 % 4 * 64 + decVal c4) :: atobBytes t := by
  simp [atobBytes, h3, h4]

lemma encodeUrl_cons3 (a b c : Nat) (t : Bytes) (ha : a < 256) (hb : b < 256) (hc : c < 256) :
    uint8ArrayToBase64Url (a :: b :: c :: t) =
      toUrlChar (encChar (a / 4)) :: toUrlChar (encChar (a % 4 * 16 + b / 16)) ::
      toUrlChar (encChar (b % 16 * 4 + c / 64)) :: toUrlChar (encChar (c % 64)) ::
      uint8ArrayToBase64Url t := by
  have h1 := (b64_enc_ne_pad (a / 4) (by omega)).1
  have h2 := (b64_enc_ne_pad (a % 4 * 16 + b / 16) (by omega)).1
  have h3 := (b64_enc_ne_pad (b % 16 * 4 + c / 64) (by omega)).1
  have h4 := (b64_enc_ne_pad (c % 64) (by omega)).1
  simp [uint8ArrayToBase64Url, btoaBytes, List.filter_cons, h1, h2, h3, h4]

lemma roundtrip_aux : ∀ (n : Nat) (B : Bytes), B.length ≤ n → (∀ x ∈ B, x < 256) →
    base64UrlToUint8Array (uint8ArrayToBase64Url B) = B := by
  intro n
  induction n with
  | zero =>
    intro B hlen _
    cases B with
    | nil => rfl
    | cons a t => simp at hlen
  | succ n ih =>
    intro B hlen hmem
    cases B with
    | nil => rfl
    | cons a B1 =>
      cases B1 with
      | nil =>
        have ha : a < 256 := hmem a (by simp)
        have h1 : a / 4 < 64 := by omega
        have h2 : a % 4 * 16 < 64 := by omega
        simp [uint8ArrayToBase64Url, btoaBytes, base64UrlToUint8Array, padEq,
              List.filter_cons, (b64_enc_ne_pad _ h1).1, (b64_enc_ne_pad _ h2).1,
              toUrlChar_fix, atobBytes, b64_char_round _ h1, b64_char_round _ h2,
              b64_decVal_enc _ h1, b64_decVal_enc _ h2]
        omega
      | cons b B2 =>
        cases B2 with
        | nil =>
          have ha : a < 256 := hmem a (by simp)
          have hb : b < 256 := hmem b (by simp)
          have h1 : a / 4 < 64 := by omega
          have h2 : a % 4 * 16 + b / 16 < 64 := by omega
          have h3 : b % 16 * 4 < 64 := by omega
          simp [uint8ArrayToBase64Url, btoaBytes, base64UrlToUint8Array, padEq,
                List.filter_cons, (b64_enc_ne_pad _ h1).1, (b64_enc_ne_pad _ h2).1,
                (b64_enc_ne_pad _ h3).1, (b64_enc_ne_pad _ h3).2,
                toUrlChar_fix, atobBytes, b64_char_round _ h1, b64_char_round _ h2,
                b64_char_round _ h3, b64_decVal_enc _ h1, b64_decVal_enc _ h2,
                b64_decVal_enc _ h3]
          omega
        | cons c t =>
          have ha : a < 256 := hmem a (by simp)
          have hb : b < 256 := hmem b (by simp)
          have hc : c < 256 := hmem c (by simp)
          have h1 : a / 4 < 64 := by omega
          have h2 : a % 4 * 16 + b / 16 < 64 := by omega
          have h3 : b % 16 * 4 + c / 64 < 64 := by omega
          have h4 : c % 64 < 64 := by omega
          have iht : base64UrlToUint8Array (uint8ArrayToBase64Url t) = t := by
            refine ih t ?_ ?_
            · simp only [List.length_cons] at hlen
              omega
            · intro x hx
              exact hmem x (by simp [hx])
          rw [encodeUrl_cons3 a b c t ha hb hc]
          show atobBytes (padEq (List.map fromUrlChar _)) = _
          simp only [List.map_cons]
          rw [b64_char_round _ h1, b64_char_round _ h2, b64_char_round _ h3,
              b64_char_round _ h4, padEq_cons4,
              atobBytes_cons4 _ _ _ _ _ (b64_enc_ne_pad _ h3).2 (b64_enc_ne_pad _ h4).2,
              b64_decVal_enc _ h1, b64_decVal_enc _ h2, b64_decVal_enc _ h3,
              b64_decVal_enc _ h4]
          have : atobBytes (padEq (List.map fromUrlChar (uint8ArrayToBase64Url t))) = t := iht
          rw [this]
          have e1 : a / 4 * 4 + (a % 4 * 16 + b / 16) / 16 = a := by omega
          have e2 : (a % 4 * 16 + b / 16) % 16 * 16 + (b % 16 * 4 + c / 64) / 4 = b := by
            omega
          have e3 : (b % 16 * 4 + c / 64) % 4 * 64 + c % 64 = c := by omega
          rw [e1, e2, e3]

/-- C7: for every byte sequence `B`, decoding the unpadded base64url
encoding of `B` (standard base64 with plus and slash substituted and the
equals padding stripped; the decoder re-pads to a multiple of 4 and
reverses the substitution) returns `B`. -/
theorem base64url_decode_encode (B : Bytes) (h : ∀ x ∈ B, x < 256) :
    base64UrlToUint8Array (uint8ArrayToBase64Url B) = B :=
  roundtrip_aux B.length B le_rfl h

/-- Witness for C7 at the concrete byte string `[0, 255, 62, 63, 10, 128, 7]`. -/
theorem base64url_decode_encode_witness :
    (∀ x ∈ ([0, 255, 62, 63, 10, 128, 7] : Bytes), x < 256) ∧
      base64UrlToUint8Array (uint8ArrayToBase64Url [0, 255, 62, 63, 10, 128, 7]) =
        [0, 255, 62, 63, 10, 128, 7] :=
  ⟨by decide, base64url_decode_encode [0, 255, 62, 63, 10, 128, 7] (by decide)⟩

/-! ## DER-to-raw ECDSA signature conversion (`derToRaw`, Deno implementation) -/

instance {ε α : Type} [DecidableEq ε] [DecidableEq α] : DecidableEq (Except ε α) :=
  fun x y =>
    match x, y with
    | .ok a, .ok b =>
        if h : a = b then .isTrue (congrArg _ h)
        else .isFalse (fun hh => h (Except.ok.inj hh))
    | .error a, .error b =>
        if h : a = b then .isTrue (congrArg _ h)
        else .isFalse (fun hh => h (Except.error.inj hh))
    | .ok _, .error _ => .isFalse (fun hh => Except.noConfusion hh)
    | .error _, .ok _ => .isFalse (fun hh => Except.noConfusion hh)

/-- `Uint8Array.prototype.set(src, off)` on a fixed-size buffer: errors
(JS `RangeError`) when the offset is negative or the source overruns the
buffer, otherwise overwrites `src.length` bytes at `off`. -/
def setBytes (dst src : Bytes) (off : Int) : Except String Bytes :=
  if off < 0 ∨ (dst.length : Int) < off + src.length then .error "RangeError"
  else .ok (dst.take off.toNat ++ src ++ dst.drop (off.toNat + src.length))

/-- `derToRaw`: convert a DER-encoded ECDSA signature to the raw 64-byte
`r ‖ s` form.  Mirrors the source: a 64-byte input is returned unchanged
(assumed already raw); otherwise the ASN.1 SEQUENCE of two INTEGERs is
parsed at computed offsets, a leading zero byte of a 33-byte integer is
stripped, and each value is copied right-aligned into its 32-byte half
of a zero-initialised 64-byte buffer.  Out-of-range reads use default 0
(like the JS `undefined`, they fail the tag comparisons). -/
def derToRaw (d : Bytes) : Except String Bytes :=
  if d.length = 64 then .ok d
  else if d.getD 0 0 ≠ 0x30 then .error "Invalid DER signature: expected sequence tag"
  else
    let o1 : Nat := if d.getD 1 0 &&& 0x80 ≠ 0 then 2 + (d.getD 1 0 &&& 0x7f) else 2
    if d.getD o1 0 ≠ 2 then .error "Invalid DER signature: expected integer tag for r"
    else
      let rLength := d.getD (o1 + 1) 0
      let rStart := o1 + 2
      let rs := if rLength = 33 ∧ d.getD rStart 0 = 0 then rStart + 1 else rStart
      let rCopy := if rLength = 33 ∧ d.getD rStart 0 = 0 then 32 else rLength
      match setBytes (List.replicate 64 0) ((d.drop rs).take rCopy) ((32 : Int) - rCopy) with
      | .error e => .error e
      | .ok raw1 =>
        let o2 := rStart + rLength
        if d.getD o2 0 ≠ 2 then .error "Invalid DER signature: expected integer tag for s"
        else
          let sLength := d.getD (o2 + 1) 0
          let sStart := o2 + 2
          let ss := if sLength = 33 ∧ d.getD sStart 0 = 0 then sStart + 1 else sStart
          let sCopy := if sLength = 33 ∧ d.getD sStart 0 = 0 then 32 else sLength
          match setBytes raw1 ((d.drop ss).take sCopy) ((64 : Int) - sCopy) with
          | .error e => .error e
          | .ok raw2 => .ok raw2

/-- Left-pad a DER integer to exactly 32 bytes with zero bytes. -/
def leftPad32 (r : Bytes) : Bytes := List.replicate (32 - r.length) 0 ++ r

/-- Strip the DER sign byte: drop the leading zero of a 33-byte integer. -/
def stripSign (r : Bytes) : Bytes :=
  if r.length = 33 ∧ r.getD 0 0 = 0 then r.drop 1 else r

/-- Short-form DER encoding of an ECDSA signature with integer bodies
`r` and `s`: SEQUENCE tag, content length, and two tagged INTEGERs. -/
def derEncode (r s : Bytes) : Bytes :=
  [0x30, 4 + r.length + s.length, 0x02, r.length] ++ (r ++ ([0x02, s.length] ++ s))

/-! ### Parsing lemmas for `derToRaw` over `derEncode` -/

lemma and128_eq_zero : ∀ x, x < 128 → x &&& 128 = 0 := by decide

lemma setBytes_pad (dst src : Bytes) (m : Nat) (hsrc : src.length ≤ m) (hm : m ≤ dst.length) :
    setBytes dst src ((m : Int) - src.length) =
      .ok (dst.take (m - src.length) ++ src ++ dst.drop m) := by
  unfold setBytes
  rw [if_neg (by omega)]
  have h1 : ((m : Int) - (src.length : Int)).toNat = m - src.length := by omega
  rw [h1]
  have h2 : m - src.length + src.length = m := by omega
  rw [h2]

lemma derEncode_getD_shift (r s : Bytes) (k : Nat) :
    (derEncode r s).getD (4 + k) 0 = (r ++ ([2, s.length] ++ s)).getD k 0 := by
  unfold derEncode
  rw [List.getD_append_right _ _ _ _ (by simp)]
  simp

lemma derEncode_drop_shift (r s : Bytes) (k : Nat) :
    (derEncode r s).drop (4 + k) = (r ++ ([2, s.length] ++ s)).drop k := by
  unfold derEncode
  exact @List.drop_append _ [48, 4 + r.length + s.length, 2, r.length] (r ++ ([2, s.length] ++ s)) k

lemma setBytes_okk (dst src : Bytes) (off : Int) (k : Nat) (hoff : off = (k : Int))
    (h : k + src.length ≤ dst.length) :
    setBytes dst src off = .ok (dst.take k ++ src ++ dst.drop (k + src.length)) := by
  subst hoff
  unfold setBytes
  rw [if_neg (by omega)]
  norm_num

lemma derToRaw_stage2 (r s L : Bytes) (hL : L.length = 32)
    (hs : s.length ≤ 33) (hs33 : s.length = 33 → s.getD 0 0 = 0) :
    (match setBytes (L ++ List.replicate 32 0)
        (List.take (if s.length = 33 ∧ s[0]?.getD 0 = 0 then 32 else s.length)
          (List.drop (if s.length = 33 ∧ s[0]?.getD 0 = 0 then 4 + r.length + 2 + 1
                      else 4 + r.length + 2)
            (derEncode r s)))
        (64 - if s.length = 33 ∧ s[0]?.getD 0 = 0 then 32 else (s.length : Int)) with
      | Except.error e => Except.error e
      | Except.ok raw2 => Except.ok raw2) = .ok (L ++ leftPad32 (stripSign s)) := by
  have hdlen : (L ++ List.replicate 32 (0 : Nat)).length = 64 := by simp [hL]
  by_cases hcs : s.length = 33
  case pos =>
    have hs0 : s[0]?.getD 0 = 0 := by
      rw [← List.getD_eq_getElem?_getD]; exact hs33 hcs
    rw [if_pos ⟨hcs, hs0⟩, if_pos ⟨hcs, hs0⟩, if_pos ⟨hcs, hs0⟩]
    have hdrop : List.drop (4 + r.length + 2 + 1) (derEncode r s) = s.drop 1 := by
      have e : 4 + r.length + 2 + 1 = 4 + (r.length + 3) := by omega
      rw [e, derEncode_drop_shift r s (r.length + 3), List.drop_append_eq_append_drop,
          List.drop_eq_nil_of_le (by omega)]
      have e2 : r.length + 3 - r.length = 3 := by omega
      rw [e2]
      simp
    rw [hdrop, List.take_of_length_le (by simp; omega)]
    rw [setBytes_okk _ _ _ 32 (by norm_num) (by simp [hL]; omega)]
    have e3 : 32 + (s.drop 1).length = 64 := by simp; omega
    rw [e3, List.take_left' hL, List.drop_eq_nil_of_le hdlen.le]
    have e4 : stripSign s = s.drop 1 := by
      unfold stripSign
      rw [if_pos ⟨hcs, hs33 hcs⟩]
    rw [e4]
    have e5 : leftPad32 (s.drop 1) = s.drop 1 := by
      unfold leftPad32
      have : 32 - (s.drop 1).length = 0 := by simp; omega
      rw [this]
      simp
    rw [e5]
    simp
  case neg =>
    rw [if_neg (fun hcc => hcs hcc.1), if_neg (fun hcc => hcs hcc.1),
        if_neg (fun hcc => hcs hcc.1)]
    have hdrop : List.drop (4 + r.length + 2) (derEncode r s) = s := by
      have e : 4 + r.length + 2 = 4 + (r.length + 2) := by omega
      rw [e, derEncode_drop_shift r s (r.length + 2), List.drop_append_eq_append_drop,
          List.drop_eq_nil_of_le (by omega)]
      have e2 : r.length + 2 - r.length = 2 := by omega
      rw [e2]
      simp
    rw [hdrop, List.take_length]
    rw [setBytes_okk _ _ _ (64 - s.length) (by omega) (by simp [hL]; omega)]
    have e3 : 64 - s.length + s.length = 64 := by omega
    rw [e3, List.drop_eq_nil_of_le hdlen.le]
    have e4 : stripSign s = s := by
      unfold stripSign
      rw [if_neg (fun hcc => hcs hcc.1)]
    rw [e4]
    rw [List.take_append_eq_append_take, List.take_of_length_le (by omega), hL]
    have e5 : List.take (64 - s.length - 32) (List.replicate 32 (0:Nat)) =
        List.replicate (32 - s.length) 0 := by
      rw [List.take_replicate]
      congr 1
      omega
    rw [e5]
    unfold leftPad32
    simp [List.append_assoc]

theorem derToRaw_big (r s : Bytes) (hr : r.length ≤ 33) (hs : s.length ≤ 33)
    (hr33 : r.length = 33 → r.getD 0 0 = 0) (hs33 : s.length = 33 → s.getD 0 0 = 0)
    (hne : r.length + s.length ≠ 58) :
    derToRaw (derEncode r s) = .ok (leftPad32 (stripSign r) ++ leftPad32 (stripSign s)) := by
  have hlen : (derEncode r s).length = 6 + r.length + s.length := by
    simp only [derEncode, List.length_append, List.length_cons, List.length_nil]
    omega
  have hlen64 : ¬ (derEncode r s).length = 64 := by omega
  have g0 : (derEncode r s).getD 0 0 = 48 := rfl
  have g1 : (derEncode r s).getD 1 0 = 4 + r.length + s.length := rfl
  have g2 : (derEncode r s).getD 2 0 = 2 := rfl
  have g3 : (derEncode r s).getD 3 0 = r.length := rfl
  have gand : (derEncode r s).getD 1 0 &&& 128 = 0 := by
    rw [g1]; exact and128_eq_zero _ (by omega)
  have pO2 : (derEncode r s)[4 + r.length]?.getD 0 = 2 := by
    rw [← List.getD_eq_getElem?_getD]
    rw [derEncode_getD_shift r s r.length,
        List.getD_append_right _ _ _ _ (le_refl _)]
    simp
  have pO2a : (derEncode r s)[4 + r.length + 1]?.getD 0 = s.length := by
    rw [← List.getD_eq_getElem?_getD]
    have e : 4 + r.length + 1 = 4 + (r.length + 1) := by omega
    rw [e, derEncode_getD_shift r s (r.length + 1),
        List.getD_append_right _ _ _ _ (by omega)]
    have e2 : r.length + 1 - r.length = 1 := by omega
    rw [e2]
    rfl
  have pO2b : (derEncode r s)[4 + r.length + 2]?.getD 0 = s[0]?.getD 0 := by
    rw [← List.getD_eq_getElem?_getD, ← List.getD_eq_getElem?_getD]
    have e : 4 + r.length + 2 = 4 + (r.length + 2) := by omega
    rw [e, derEncode_getD_shift r s (r.length + 2),
        List.getD_append_right _ _ _ _ (by omega)]
    have e2 : r.length + 2 - r.length = 2 := by omega
    rw [e2]
    show ([2, s.length] ++ s).getD 2 0 = s.getD 0 0
    rfl
  have eC : List.drop 32 (List.replicate 64 (0:Nat)) = List.replicate 32 0 := by
    rw [List.drop_replicate]
  simp only [derToRaw, hlen64, g0, g2, g3, gand, ne_eq, not_true, not_false_iff,
             ite_false, ite_true, if_false, if_true]
  norm_num [pO2, pO2a, pO2b]
  by_cases hcr : r.length = 33
  case pos =>
    have hp4 : (derEncode r s)[4]?.getD 0 = 0 := by
      rw [← List.getD_eq_getElem?_getD]
      have h := derEncode_getD_shift r s 0
      simp only [Nat.add_zero] at h
      rw [h, List.getD_append _ _ _ _ (by omega)]
      exact hr33 hcr
    rw [if_pos ⟨hcr, hp4⟩, if_pos ⟨hcr, hp4⟩, if_pos ⟨hcr, hp4⟩]
    have dslice5 : List.take 32 (List.drop 5 (derEncode r s)) = r.drop 1 := by
      have e : (5 : Nat) = 4 + 1 := by norm_num
      rw [e, derEncode_drop_shift r s 1, List.drop_append_eq_append_drop]
      have e1 : 1 - r.length = 0 := by omega
      rw [e1]
      simp only [List.drop_zero]
      exact List.take_left' (by simp; omega)
    rw [dslice5]
    rw [setBytes_okk _ _ _ 0 (by norm_num) (by simp; omega)]
    have eD : (0 : Nat) + (r.drop 1).length = 32 := by simp; omega
    rw [eD, eC]
    simp only [List.take_zero, List.nil_append]
    rw [derToRaw_stage2 r s (r.drop 1) (by simp; omega) hs hs33]
    have e4 : stripSign r = r.drop 1 := by
      unfold stripSign
      rw [if_pos ⟨hcr, hr33 hcr⟩]
    rw [e4]
    have e5 : leftPad32 (r.drop 1) = r.drop 1 := by
      unfold leftPad32
      have h0 : 32 - (r.drop 1).length = 0 := by simp; omega
      rw [h0]
      simp
    rw [e5]
  case neg =>
    rw [if_neg (fun hcc => hcr hcc.1), if_neg (fun hcc => hcr hcc.1),
        if_neg (fun hcc => hcr hcc.1)]
    have dslice4 : (List.take r.length (List.drop 4 (derEncode r s))) = r := by
      have h := derEncode_drop_shift r s 0
      norm_num at h
      rw [h]
      exact List.take_left r _
    rw [dslice4]
    rw [setBytes_okk _ _ _ (32 - r.length) (by omega) (by simp; omega)]
    have eA : List.take (32 - r.length) (List.replicate 64 (0:Nat)) =
        List.replicate (32 - r.length) 0 := by
      rw [List.take_replicate]
      congr 1
      omega
    have eB : 32 - r.length + r.length = 32 := by omega
    rw [eA, eB, eC]
    simp only []
    rw [derToRaw_stage2 r s (List.replicate (32 - r.length) 0 ++ r) (by simp; omega) hs hs33]
    have e4 : stripSign r = r := by
      unfold stripSign
      rw [if_neg (fun hcc => hcr hcc.1)]
    rw [e4]
    unfold leftPad32
    rfl

/-- C2 (amended): for every DER-encoded ECDSA signature whose total
encoding is not exactly 64 bytes — integer bodies of at most 33 bytes,
a 33-byte body carrying the mandatory leading zero sign byte —
`derToRaw` produces the fixed 64-byte `r ‖ s` value: each half exactly
32 bytes, the sign byte stripped, shorter values left-zero-padded.  In
particular a 33-byte `r` with leading zero decodes to the same raw
bytes as the corresponding 32-byte `r`. -/
theorem derToRaw_spec :
    (∀ r s : Bytes, r.length ≤ 33 → s.length ≤ 33 →
      (r.length = 33 → r.getD 0 0 = 0) → (s.length = 33 → s.getD 0 0 = 0) →
      r.length + s.length ≠ 58 →
      derToRaw (derEncode r s) = .ok (leftPad32 (stripSign r) ++ leftPad32 (stripSign s)) ∧
        (leftPad32 (stripSign r) ++ leftPad32 (stripSign s)).length = 64) ∧
    derToRaw (derEncode (0 :: 200 :: List.replicate 31 1) (List.replicate 32 9)) =
      derToRaw (derEncode (200 :: List.replicate 31 1) (List.replicate 32 9)) := by
  constructor
  · intro r s hr hs hr33 hs33 hne
    refine ⟨derToRaw_big r s hr hs hr33 hs33 hne, ?_⟩
    have h1 : (stripSign r).length ≤ 32 := by
      unfold stripSign
      split
      · simp
        omega
      · rename_i hcond
        rcases Nat.lt_or_ge r.length 33 with h | h
        · omega
        · have h33 : r.length = 33 := by omega
          exact absurd ⟨h33, hr33 h33⟩ hcond
    have h2 : (stripSign s).length ≤ 32 := by
      unfold stripSign
      split
      · simp
        omega
      · rename_i hcond
        rcases Nat.lt_or_ge s.length 33 with h | h
        · omega
        · have h33 : s.length = 33 := by omega
          exact absurd ⟨h33, hs33 h33⟩ hcond
    simp [leftPad32]
    omega
  · decide

/-- Witness for C2 at a concrete signature whose `r` is 33 bytes with a
leading zero sign byte. -/
theorem derToRaw_spec_witness :
    ((0 :: 200 :: List.replicate 31 1 : Bytes).length ≤ 33 ∧
        (List.replicate 32 9 : Bytes).length ≤ 33) ∧
      derToRaw (derEncode (0 :: 200 :: List.replicate 31 1) (List.replicate 32 9)) =
        .ok (leftPad32 (stripSign (0 :: 200 :: List.replicate 31 1)) ++
             leftPad32 (stripSign (List.replicate 32 9))) :=
  ⟨⟨by decide, by decide⟩,
    (derToRaw_spec.1 (0 :: 200 :: List.replicate 31 1) (List.replicate 32 9)
      (by decide) (by decide) (by decide) (by decide) (by decide)).1⟩

/-- C2 counterexample: a valid DER signature with 29-byte integer bodies
occupies exactly 64 bytes, and `derToRaw` returns it unchanged instead
of the 32-byte-padded `r ‖ s` form the claim asserts for every DER
signature. -/
theorem derToRaw_claim_cex :
    (derEncode (1 :: List.replicate 28 0) (1 :: List.replicate 28 0)).length = 64 ∧
      derToRaw (derEncode (1 :: List.replicate 28 0) (1 :: List.replicate 28 0)) =
        .ok (derEncode (1 :: List.replicate 28 0) (1 :: List.replicate 28 0)) ∧
      derToRaw (derEncode (1 :: List.replicate 28 0) (1 :: List.replicate 28 0)) ≠
        .ok (leftPad32 (stripSign (1 :: List.replicate 28 0)) ++
             leftPad32 (stripSign (1 :: List.replicate 28 0))) := by
  refine ⟨by decide, by decide, by decide⟩

/-! ## Payload encryption (`encryptPayload`, both copies)

The deterministic core of each `encryptPayload` copy, with the per-call
randomness (16-byte salt from `crypto.getRandomValues`, the ephemeral
ECDH key pair represented by its exported 65-byte public key and the
derived ECDH shared secret) passed as explicit inputs, and the platform
primitives (HKDF-SHA256 via `deriveBits`, AES-128-GCM via
`crypto.subtle.encrypt` returning ciphertext plus 16-byte tag) as
function parameters. -/

/-- Platform crypto primitives as parameters: `hkdf salt ikm info len`
and `aesGcm key nonce plaintext`. -/
structure CryptoOps where
  hkdf : Bytes → Bytes → Bytes → Nat → Bytes
  aesGcm : Bytes → Bytes → Bytes → Bytes

/-- Big-endian 4-byte encoding, as `DataView.setUint32`/manual shifts. -/
def beUint32 (n : Nat) : Bytes :=
  [n >>> 24 &&& 255, n >>> 16 &&& 255, n >>> 8 &&& 255, n &&& 255]

/-- Big-endian value of a 4-byte field. -/
def beToNat (b : Bytes) : Nat :=
  ((b.getD 0 0 * 256 + b.getD 1 0) * 256 + b.getD 2 0) * 256 + b.getD 3 0

namespace Part004

/-- The RFC 8291 IKM info of the Deno copy:
`"WebPush: info\0" ‖ clientPublicKey ‖ localPublicKey`. -/
def ikmInfo (clientPub localPub : Bytes) : Bytes :=
  utf8 "WebPush: info\x00" ++ clientPub ++ localPub

/-- First HKDF stage of the Deno copy: auth secret as salt, ECDH shared
secret as input key material, 32 bytes out (`ikmBits`). -/
def prk (ops : CryptoOps) (clientAuth shared clientPub localPub : Bytes) : Bytes :=
  ops.hkdf clientAuth shared (ikmInfo clientPub localPub) 32

/-- Content-encryption key of the Deno copy: 16 bytes from the PRK with
the per-message salt and the aes128gcm info (`cekBits`). -/
def cek (ops : CryptoOps) (salt clientAuth shared clientPub localPub : Bytes) : Bytes :=
  ops.hkdf salt (prk ops clientAuth shared clientPub localPub)
    (utf8 "Content-Encoding: aes128gcm\x00") 16

/-- Nonce of the Deno copy: 12 bytes from the PRK with the same salt
(`nonceBits`). -/
def nonce (ops : CryptoOps) (salt clientAuth shared clientPub localPub : Bytes) : Bytes :=
  ops.hkdf salt (prk ops clientAuth shared clientPub localPub)
    (utf8 "Content-Encoding: nonce\x00") 12

/-- The assembled record of the Deno copy: 86-byte header (salt,
big-endian record size 4096, key-id length byte 65, local public key)
followed by the AES-GCM ciphertext of the payload with the `0x02`
padding delimiter appended.  Faithful under the platform invariants
`salt.length = 16` and `localPub.length = 65` (the fixed sizes
`getRandomValues(new Uint8Array(16))` and a raw-exported P-256 key
always produce), which the theorems assume. -/
def record (ops : CryptoOps) (payload clientPub clientAuth salt localPub shared : Bytes) :
    Bytes :=
  let padded := payload ++ [2]
  let ct := ops.aesGcm (cek ops salt clientAuth shared clientPub localPub)
    (nonce ops salt clientAuth shared clientPub localPub) padded
  salt ++ beUint32 4096 ++ [65] ++ localPub ++ ct

end Part004

namespace WPU

/-- First-stage info of the `web-push-utils.ts` copy:
`"Content-Encoding: auth\0"`. -/
def authInfo : Bytes := utf8 "Content-Encoding: auth\x00"

/-- Second-stage key info of the `web-push-utils.ts` copy:
`"Content-Encoding: aes128gcm\0P-256\0"` with two-byte length prefixes
(0, 65) before each public key. -/
def keyInfo (clientPub serverPub : Bytes) : Bytes :=
  utf8 "Content-Encoding: aes128gcm\x00P-256\x00" ++ [0, 65] ++ clientPub ++
    [0, 65] ++ serverPub

/-- First HKDF stage of the `web-push-utils.ts` copy (`prk`). -/
def prk (ops : CryptoOps) (authSecret shared : Bytes) : Bytes :=
  ops.hkdf authSecret shared authInfo 32

/-- 32-byte second stage of the `web-push-utils.ts` copy (`ikm`). -/
def ikm (ops : CryptoOps) (salt authSecret shared clientPub serverPub : Bytes) : Bytes :=
  ops.hkdf salt (prk ops authSecret shared) (keyInfo clientPub serverPub) 32

/-- Content-encryption key of the `web-push-utils.ts` copy: the first
16 bytes of `ikm`. -/
def cek (ops : CryptoOps) (salt authSecret shared clientPub serverPub : Bytes) : Bytes :=
  (ikm ops salt authSecret shared clientPub serverPub).take 16

/-- Nonce of the `web-push-utils.ts` copy: 12 bytes from the first-stage
`prk` with the nonce info. -/
def nonce (ops : CryptoOps) (salt authSecret shared : Bytes) : Bytes :=
  ops.hkdf salt (prk ops authSecret shared) (utf8 "Content-Encoding: nonce\x00") 12

/-- The assembled record of the `web-push-utils.ts` copy: header is
salt, big-endian record size `paddedPayload.length + 16`, the byte
`serverPublicKey.length`, the server public key; then the ciphertext. -/
def record (ops : CryptoOps) (payload clientPub authSecret salt serverPub shared : Bytes) :
    Bytes :=
  let padded := payload ++ [2]
  let ct := ops.aesGcm (cek ops salt authSecret shared clientPub serverPub)
    (nonce ops salt authSecret shared) padded
  salt ++ beUint32 (padded.length + 16) ++ [serverPub.length] ++ serverPub ++ ct

end WPU

/-! ### Framing lemmas for the aes128gcm record -/

lemma drop_app_of_le (l m : Bytes) (n : Nat) (h : l.length ≤ n) :
    (l ++ m).drop n = m.drop (n - l.length) := by
  rw [List.drop_append_eq_append_drop, List.drop_eq_nil_of_le h]
  simp

lemma framing_of (salt rs pub ct : Bytes)
    (hs : salt.length = 16) (hrs : rs.length = 4) (hp : pub.length = 65) :
    (salt ++ rs ++ [65] ++ pub ++ ct).length = 86 + ct.length ∧
    (salt ++ rs ++ [65] ++ pub ++ ct).take 16 = salt ∧
    ((salt ++ rs ++ [65] ++ pub ++ ct).drop 16).take 4 = rs ∧
    (salt ++ rs ++ [65] ++ pub ++ ct).getD 20 0 = 65 ∧
    ((salt ++ rs ++ [65] ++ pub ++ ct).drop 21).take 65 = pub ∧
    (salt ++ rs ++ [65] ++ pub ++ ct).drop 86 = ct := by
  simp only [List.append_assoc]
  refine ⟨?_, ?_, ?_, ?_, ?_, ?_⟩
  · simp
    omega
  · rw [List.take_left' hs]
  · rw [drop_app_of_le _ _ _ (by omega), hs]
    norm_num
    rw [List.take_left' hrs]
  · rw [List.getD_append_right _ _ _ _ (by omega : salt.length ≤ 20),
        show 20 - salt.length = 4 from by omega,
        List.getD_append_right _ _ _ _ (by omega : rs.length ≤ 4),
        show 4 - rs.length = 0 from by omega]
    rfl
  · rw [drop_app_of_le _ _ 21 (by omega), show 21 - salt.length = 5 from by omega,
        drop_app_of_le _ _ 5 (by omega), show 5 - rs.length = 1 from by omega,
        drop_app_of_le _ _ 1 (by simp), show 1 - ([65] : Bytes).length = 0 from rfl,
        List.drop_zero, List.take_left' hp]
  · rw [drop_app_of_le _ _ 86 (by omega), show 86 - salt.length = 70 from by omega,
        drop_app_of_le _ _ 70 (by omega), show 70 - rs.length = 66 from by omega,
        drop_app_of_le _ _ 66 (by simp), show 66 - ([65] : Bytes).length = 65 from rfl,
        drop_app_of_le _ _ 65 (by omega), show 65 - pub.length = 0 from by omega,
        List.drop_zero]

/-! ### Concrete fixtures used by witnesses and counterexamples -/

/-- Concrete primitives for evaluation: `hkdf` returns its info
argument, `aesGcm` appends a 16-byte zero tag. -/
def opsX : CryptoOps :=
  ⟨fun _ _ info _ => info, fun _ _ m => m ++ List.replicate 16 0⟩

def saltX : Bytes := List.replicate 16 5
def pubX : Bytes := List.replicate 65 4
def clientPubX : Bytes := List.replicate 65 3
def authX : Bytes := List.replicate 16 1
def sharedX : Bytes := List.replicate 32 2
def payloadX : Bytes := [104, 101, 108, 108, 111]

/-- C1 (amended): in the Deno copy the two HKDF-SHA256 stages are
exactly as the claim states — a 32-byte PRK from the auth secret
(salt), ECDH shared secret (IKM) and info
`"WebPush: info\0" ‖ clientKey ‖ senderKey`, then a 16-byte CEK and a
12-byte nonce from that PRK with the per-message salt and the
`"Content-Encoding: aes128gcm\0"` / `"Content-Encoding: nonce\0"`
infos, and the record's ciphertext is the AES-GCM encryption under that
CEK and nonce.  The `web-push-utils.ts` copy instead derives its first
stage with info `"Content-Encoding: auth\0"`, its second stage as
32 bytes with info
`"Content-Encoding: aes128gcm\0P-256\0" ‖ 0x0041 ‖ clientKey ‖ 0x0041 ‖ senderKey`
truncated to 16 bytes for the CEK, and its nonce from the first-stage
PRK. -/
theorem encryptPayload_key_schedule :
    (∀ (ops : CryptoOps) (payload clientPub clientAuth salt localPub shared : Bytes),
      Part004.prk ops clientAuth shared clientPub localPub =
        ops.hkdf clientAuth shared
          ([87, 101, 98, 80, 117, 115, 104, 58, 32, 105, 110, 102, 111, 0] ++
            clientPub ++ localPub) 32 ∧
      Part004.cek ops salt clientAuth shared clientPub localPub =
        ops.hkdf salt (Part004.prk ops clientAuth shared clientPub localPub)
          [67, 111, 110, 116, 101, 110, 116, 45, 69, 110, 99, 111, 100, 105, 110, 103,
           58, 32, 97, 101, 115, 49, 50, 56, 103, 99, 109, 0] 16 ∧
      Part004.nonce ops salt clientAuth shared clientPub localPub =
        ops.hkdf salt (Part004.prk ops clientAuth shared clientPub localPub)
          [67, 111, 110, 116, 101, 110, 116, 45, 69, 110, 99, 111, 100, 105, 110, 103,
           58, 32, 110, 111, 110, 99, 101, 0] 12 ∧
      Part004.record ops payload clientPub clientAuth salt localPub shared =
        salt ++ beUint32 4096 ++ [65] ++ localPub ++
          ops.aesGcm (Part004.cek ops salt clientAuth shared clientPub localPub)
            (Part004.nonce ops salt clientAuth shared clientPub localPub)
            (payload ++ [2])) ∧
    (∀ (ops : CryptoOps) (salt authSecret shared clientPub serverPub : Bytes),
      WPU.prk ops authSecret shared =
        ops.hkdf authSecret shared
          [67, 111, 110, 116, 101, 110, 116, 45, 69, 110, 99, 111, 100, 105, 110, 103,
           58, 32, 97, 117, 116, 104, 0] 32 ∧
      WPU.cek ops salt authSecret shared clientPub serverPub =
        (ops.hkdf salt (WPU.prk ops authSecret shared)
          ([67, 111, 110, 116, 101, 110, 116, 45, 69, 110, 99, 111, 100, 105, 110, 103,
            58, 32, 97, 101, 115, 49, 50, 56, 103, 99, 109, 0, 80, 45, 50, 53, 54, 0] ++
            [0, 65] ++ clientPub ++ [0, 65] ++ serverPub) 32).take 16 ∧
      WPU.nonce ops salt authSecret shared =
        ops.hkdf salt (WPU.prk ops authSecret shared)
          [67, 111, 110, 116, 101, 110, 116, 45, 69, 110, 99, 111, 100, 105, 110, 103,
           58, 32, 110, 111, 110, 99, 101, 0] 12) := by
  have hWP : utf8 "WebPush: info\x00" =
      [87, 101, 98, 80, 117, 115, 104, 58, 32, 105, 110, 102, 111, 0] := by decide
  have hCEK : utf8 "Content-Encoding: aes128gcm\x00" =
      [67, 111, 110, 116, 101, 110, 116, 45, 69, 110, 99, 111, 100, 105, 110, 103,
       58, 32, 97, 101, 115, 49, 50, 56, 103, 99, 109, 0] := by decide
  have hNON : utf8 "Content-Encoding: nonce\x00" =
      [67, 111, 110, 116, 101, 110, 116, 45, 69, 110, 99, 111, 100, 105, 110, 103,
       58, 32, 110, 111, 110, 99, 101, 0] := by decide
  have hAUTH : utf8 "Content-Encoding: auth\x00" =
      [67, 111, 110, 116, 101, 110, 116, 45, 69, 110, 99, 111, 100, 105, 110, 103,
       58, 32, 97, 117, 116, 104, 0] := by decide
  have hKI : utf8 "Content-Encoding: aes128gcm\x00P-256\x00" =
      [67, 111, 110, 116, 101, 110, 116, 45, 69, 110, 99, 111, 100, 105, 110, 103,
       58, 32, 97, 101, 115, 49, 50, 56, 103, 99, 109, 0, 80, 45, 50, 53, 54, 0] := by
    decide
  constructor
  · intro ops payload clientPub clientAuth salt localPub shared
    refine ⟨?_, ?_, ?_, ?_⟩
    · rw [Part004.prk, Part004.ikmInfo, hWP]
    · rw [Part004.cek, hCEK]
    · rw [Part004.nonce, hNON]
    · rw [Part004.record]
  · intro ops salt authSecret shared clientPub serverPub
    refine ⟨?_, ?_, ?_⟩
    · rw [WPU.prk, WPU.authInfo, hAUTH]
    · rw [WPU.cek, WPU.ikm, WPU.keyInfo, hKI]
    · rw [WPU.nonce, hNON]

/-- C1 counterexample: at concrete inputs (with an `hkdf` that returns
its info argument, making the derivation schedule observable) the
`web-push-utils.ts` copy's PRK and CEK differ from the values the
claimed schedule produces. -/
theorem wpu_key_schedule_cex :
    WPU.prk opsX authX sharedX ≠
        opsX.hkdf authX sharedX (utf8 "WebPush: info\x00" ++ clientPubX ++ pubX) 32 ∧
      WPU.cek opsX saltX authX sharedX clientPubX pubX ≠
        opsX.hkdf saltX
          (opsX.hkdf authX sharedX (utf8 "WebPush: info\x00" ++ clientPubX ++ pubX) 32)
          (utf8 "Content-Encoding: aes128gcm\x00") 16 := by
  refine ⟨by decide, by decide⟩

/-- C4: for both `encryptPayload` copies, under the platform invariants
(16-byte salt, 65-byte exported public key, AES-GCM output one 16-byte
tag longer than its input), the record has length
16 + 4 + 1 + 65 + len(paddedPlaintext) + 16 with the salt at offset 0,
the 4-byte record-size field at offset 16, the key-id-length byte 65 at
offset 20, the sender public key at offset 21, and the
ciphertext-with-tag from offset 86 onward. -/
theorem encryptPayload_framing :
    ∀ (ops : CryptoOps) (payload clientPub clientAuth salt pub shared : Bytes),
      salt.length = 16 → pub.length = 65 →
      (∀ k n m, (ops.aesGcm k n m).length = m.length + 16) →
      ((Part004.record ops payload clientPub clientAuth salt pub shared).length =
          16 + 4 + 1 + 65 + (payload ++ [2]).length + 16 ∧
        (Part004.record ops payload clientPub clientAuth salt pub shared).take 16 = salt ∧
        ((Part004.record ops payload clientPub clientAuth salt pub shared).drop 16).take 4 =
          beUint32 4096 ∧
        (Part004.record ops payload clientPub clientAuth salt pub shared).getD 20 0 = 65 ∧
        ((Part004.record ops payload clientPub clientAuth salt pub shared).drop 21).take 65 =
          pub ∧
        (Part004.record ops payload clientPub clientAuth salt pub shared).drop 86 =
          ops.aesGcm (Part004.cek ops salt clientAuth shared clientPub pub)
            (Part004.nonce ops salt clientAuth shared clientPub pub) (payload ++ [2])) ∧
      ((WPU.record ops payload clientPub clientAuth salt pub shared).length =
          16 + 4 + 1 + 65 + (payload ++ [2]).length + 16 ∧
        (WPU.record ops payload clientPub clientAuth salt pub shared).take 16 = salt ∧
        ((WPU.record ops payload clientPub clientAuth salt pub shared).drop 16).take 4 =
          beUint32 ((payload ++ [2]).length + 16) ∧
        (WPU.record ops payload clientPub clientAuth salt pub shared).getD 20 0 = 65 ∧
        ((WPU.record ops payload clientPub clientAuth salt pub shared).drop 21).take 65 =
          pub ∧
        (WPU.record ops payload clientPub clientAuth salt pub shared).drop 86 =
          ops.aesGcm (WPU.cek ops salt clientAuth shared clientPub pub)
            (WPU.nonce ops salt clientAuth shared) (payload ++ [2])) := by
  intro ops payload clientPub clientAuth salt pub shared hs hp henc
  constructor
  · have h := framing_of salt (beUint32 4096) pub
      (ops.aesGcm (Part004.cek ops salt clientAuth shared clientPub pub)
        (Part004.nonce ops salt clientAuth shared clientPub pub) (payload ++ [2]))
      hs rfl hp
    simp only [Part004.record]
    refine ⟨?_, h.2.1, h.2.2.1, h.2.2.2.1, h.2.2.2.2.1, h.2.2.2.2.2⟩
    rw [h.1, henc]
    simp
    omega
  · have h := framing_of salt (beUint32 ((payload ++ [2]).length + 16)) pub
      (ops.aesGcm (WPU.cek ops salt clientAuth shared clientPub pub)
        (WPU.nonce ops salt clientAuth shared) (payload ++ [2]))
      hs rfl hp
    simp only [WPU.record, hp]
    refine ⟨?_, h.2.1, h.2.2.1, h.2.2.2.1, h.2.2.2.2.1, h.2.2.2.2.2⟩
    rw [h.1, henc]
    simp
    omega

/-- Witness for C4 at concrete keys, salt, payload and primitives. -/
theorem encryptPayload_framing_witness :
    (saltX.length = 16 ∧ pubX.length = 65 ∧
        (∀ k n m, (opsX.aesGcm k n m).length = m.length + 16)) ∧
      (Part004.record opsX payloadX clientPubX authX saltX pubX sharedX).length =
        16 + 4 + 1 + 65 + (payloadX ++ [2]).length + 16 ∧
      ((WPU.record opsX payloadX clientPubX authX saltX pubX sharedX).drop 21).take 65 =
        pubX :=
  ⟨⟨by decide, by decide, fun k n m => by simp [opsX]⟩,
    ((encryptPayload_framing opsX payloadX clientPubX authX saltX pubX sharedX
      (by decide) (by decide) (fun k n m => by simp [opsX])).1).1,
    ((encryptPayload_framing opsX payloadX clientPubX authX saltX pubX sharedX
      (by decide) (by decide) (fun k n m => by simp [opsX])).2).2.2.2.2.1⟩

lemma beToNat_beUint32 (x : Nat) (h : x < 4294967296) : beToNat (beUint32 x) = x := by
  have h24 : x >>> 24 = x / 16777216 := by rw [Nat.shiftRight_eq_div_pow]
  have h16 : x >>> 16 = x / 65536 := by rw [Nat.shiftRight_eq_div_pow]
  have h8 : x >>> 8 = x / 256 := by rw [Nat.shiftRight_eq_div_pow]
  have ha : ∀ y : Nat, y &&& 255 = y % 256 := fun y => Nat.and_pow_two_sub_one_eq_mod y 8
  simp only [beToNat, beUint32, List.getD_cons_zero, List.getD_cons_succ,
             h24, h16, h8, ha]
  omega

/-- C5 (amended): the Deno copy writes the fixed value 4096 into the
big-endian record-size field at offset 16; the `web-push-utils.ts` copy
instead writes the ciphertext length, `paddedPlaintext.length + 16`
(= payload length + 17). -/
theorem record_size_field :
    (∀ (ops : CryptoOps) (payload clientPub clientAuth salt pub shared : Bytes),
      salt.length = 16 →
      beToNat (((Part004.record ops payload clientPub clientAuth salt pub shared).drop
        16).take 4) = 4096) ∧
    (∀ (ops : CryptoOps) (payload clientPub clientAuth salt pub shared : Bytes),
      salt.length = 16 → payload.length + 17 < 4294967296 →
      beToNat (((WPU.record ops payload clientPub clientAuth salt pub shared).drop
        16).take 4) = payload.length + 17) := by
  constructor
  · intro ops payload clientPub clientAuth salt pub shared hs
    simp only [Part004.record, List.append_assoc]
    rw [drop_app_of_le _ _ 16 (by omega), show 16 - salt.length = 0 from by omega,
        List.drop_zero,
        List.take_left' (show (beUint32 4096).length = 4 from rfl)]
    decide
  · intro ops payload clientPub clientAuth salt pub shared hs hlt
    simp only [WPU.record, List.append_assoc]
    have hbe : (beUint32 ((payload ++ [2]).length + 16)).length = 4 := rfl
    rw [drop_app_of_le _ _ 16 (by omega), show 16 - salt.length = 0 from by omega,
        List.drop_zero, List.take_left' hbe, beToNat_beUint32 _ (by simp; omega)]
    simp only [List.length_append, List.length_cons, List.length_nil]

/-- Witness for C5 (amended) at concrete inputs: the Deno field holds
4096; the `web-push-utils.ts` field holds 22 for a 5-byte payload. -/
theorem record_size_field_witness :
    (saltX.length = 16 ∧ payloadX.length + 17 < 4294967296) ∧
      beToNat (((Part004.record opsX payloadX clientPubX authX saltX pubX
        sharedX).drop 16).take 4) = 4096 ∧
      beToNat (((WPU.record opsX payloadX clientPubX authX saltX pubX
        sharedX).drop 16).take 4) = payloadX.length + 17 :=
  ⟨⟨by decide, by decide⟩,
    record_size_field.1 opsX payloadX clientPubX authX saltX pubX sharedX (by decide),
    record_size_field.2 opsX payloadX clientPubX authX saltX pubX sharedX
      (by decide) (by decide)⟩

/-- C5 counterexample: at a concrete 5-byte payload the
`web-push-utils.ts` record-size field decodes to 22, not 4096. -/
theorem record_size_field_cex :
    beToNat (((WPU.record opsX payloadX clientPubX authX saltX pubX
      sharedX).drop 16).take 4) = 22 ∧ (22 : Nat) ≠ 4096 := by
  refine ⟨by decide, by decide⟩

/-- C8: the 16-byte salt and the ephemeral public key are fresh
per-call inputs of the (otherwise pure) encryption core — the emitted
record carries the call's own salt at offset 0 and the call's own
ephemeral key at offset 21, in both copies — so two calls whose drawn
salts (or drawn ephemeral keys) differ produce different records, even
with identical plaintext, subscriber key and auth secret. -/
theorem encryptPayload_fresh_inputs :
    ∀ (ops : CryptoOps) (payload clientPub clientAuth shared salt1 salt2 pub1 pub2 : Bytes),
      salt1.length = 16 → salt2.length = 16 → pub1.length = 65 → pub2.length = 65 →
      ((Part004.record ops payload clientPub clientAuth salt1 pub1 shared).take 16 =
          salt1 ∧
        ((Part004.record ops payload clientPub clientAuth salt1 pub1 shared).drop
          21).take 65 = pub1 ∧
        (WPU.record ops payload clientPub clientAuth salt1 pub1 shared).take 16 = salt1 ∧
        ((WPU.record ops payload clientPub clientAuth salt1 pub1 shared).drop 21).take 65 =
          pub1) ∧
      (salt1 ≠ salt2 →
        Part004.record ops payload clientPub clientAuth salt1 pub1 shared ≠
          Part004.record ops payload clientPub clientAuth salt2 pub1 shared ∧
        WPU.record ops payload clientPub clientAuth salt1 pub1 shared ≠
          WPU.record ops payload clientPub clientAuth salt2 pub1 shared) ∧
      (pub1 ≠ pub2 →
        Part004.record ops payload clientPub clientAuth salt1 pub1 shared ≠
          Part004.record ops payload clientPub clientAuth salt1 pub2 shared ∧
        WPU.record ops payload clientPub clientAuth salt1 pub1 shared ≠
          WPU.record ops payload clientPub clientAuth salt1 pub2 shared) := by
  intro ops payload clientPub clientAuth shared salt1 salt2 pub1 pub2 hs1 hs2 hp1 hp2
  have F : ∀ (salt pub : Bytes), salt.length = 16 → pub.length = 65 →
      (Part004.record ops payload clientPub clientAuth salt pub shared).take 16 = salt ∧
      ((Part004.record ops payload clientPub clientAuth salt pub shared).drop 21).take 65 =
        pub := by
    intro salt pub hs hp
    have h := framing_of salt (beUint32 4096) pub
      (ops.aesGcm (Part004.cek ops salt clientAuth shared clientPub pub)
        (Part004.nonce ops salt clientAuth shared clientPub pub) (payload ++ [2]))
      hs rfl hp
    simp only [Part004.record]
    exact ⟨h.2.1, h.2.2.2.2.1⟩
  have G : ∀ (salt pub : Bytes), salt.length = 16 → pub.length = 65 →
      (WPU.record ops payload clientPub clientAuth salt pub shared).take 16 = salt ∧
      ((WPU.record ops payload clientPub clientAuth salt pub shared).drop 21).take 65 =
        pub := by
    intro salt pub hs hp
    have h := framing_of salt (beUint32 ((payload ++ [2]).length + 16)) pub
      (ops.aesGcm (WPU.cek ops salt clientAuth shared clientPub pub)
        (WPU.nonce ops salt clientAuth shared) (payload ++ [2]))
      hs rfl hp
    simp only [WPU.record, hp]
    exact ⟨h.2.1, h.2.2.2.2.1⟩
  refine ⟨⟨(F salt1 pub1 hs1 hp1).1, (F salt1 pub1 hs1 hp1).2,
           (G salt1 pub1 hs1 hp1).1, (G salt1 pub1 hs1 hp1).2⟩, ?_, ?_⟩
  · intro hneq
    constructor
    · intro heq
      apply hneq
      rw [← (F salt1 pub1 hs1 hp1).1, ← (F salt2 pub1 hs2 hp1).1, heq]
    · intro heq
      apply hneq
      rw [← (G salt1 pub1 hs1 hp1).1, ← (G salt2 pub1 hs2 hp1).1, heq]
  · intro hneq
    constructor
    · intro heq
      apply hneq
      rw [← (F salt1 pub1 hs1 hp1).2, ← (F salt1 pub2 hs1 hp2).2, heq]
    · intro heq
      apply hneq
      rw [← (G salt1 pub1 hs1 hp1).2, ← (G salt1 pub2 hs1 hp2).2, heq]

/-- Witness for C8: two concrete calls differing only in the drawn salt
(and only in the drawn ephemeral key) give different records. -/
theorem encryptPayload_fresh_inputs_witness :
    (saltX.length = 16 ∧ (List.replicate 16 6 : Bytes).length = 16 ∧
        pubX.length = 65 ∧ (List.replicate 65 7 : Bytes).length = 65 ∧
        saltX ≠ List.replicate 16 6) ∧
      Part004.record opsX payloadX clientPubX authX saltX pubX sharedX ≠
        Part004.record opsX payloadX clientPubX authX (List.replicate 16 6) pubX sharedX :=
  ⟨⟨by decide, by decide, by decide, by decide, by decide⟩,
    ((encryptPayload_fresh_inputs opsX payloadX clientPubX authX sharedX
      saltX (List.replicate 16 6) pubX (List.replicate 65 7)
      (by decide) (by decide) (by decide) (by decide)).2.1 (by decide)).1⟩

/-! ## VAPID JWT construction (`createVapidAuthHeader` / `createVapidJwt`)

The parsed endpoint URL is modelled post-`new URL(...)`: `protocol`
carries the trailing colon (`"https:"`), `host` the hostname and
optional port, `path` the remainder.  Both copies read only `protocol`
and `host` (the Deno copy via a template string, the
`web-push-utils.ts` copy via `url.origin`, identical for http(s) URLs).
`JSON.stringify` of the two-field header and three-field claims objects
is modelled by the literal strings it produces (insertion order, no
escaping in the plain strings involved). -/

structure UrlParts where
  protocol : String
  host : String
  path : String

/-- The JWT audience: scheme plus host, no path. -/
def audience (u : UrlParts) : String := u.protocol ++ "//" ++ u.host

/-- `JSON.stringify({typ:'JWT',alg:'ES256'})` of the Deno copy. -/
def headerJson004 : String := "\x7b\"typ\":\"JWT\",\"alg\":\"ES256\"\x7d"

/-- `JSON.stringify({alg:'ES256',typ:'JWT'})` of `web-push-utils.ts`. -/
def headerJsonWpu : String := "\x7b\"alg\":\"ES256\",\"typ\":\"JWT\"\x7d"

/-- `JSON.stringify({aud, exp: now + 12*60*60, sub})`, common to both
copies. -/
def claimsJson (aud sub : String) (now : Nat) : String :=
  "\x7b\"aud\":\"" ++ aud ++ "\",\"exp\":" ++ toString (now + 12 * 60 * 60) ++
    ",\"sub\":\"" ++ sub ++ "\"\x7d"

/-- Base64url of a string's bytes, as both copies apply to the JSON
segments. -/
def b64urlOfString (s : String) : String :=
  String.mk (uint8ArrayToBase64Url (utf8 s))

/-- The unsigned token `headerB64 ‖ "." ‖ claimsB64` of the Deno copy. -/
def unsignedToken004 (u : UrlParts) (sub : String) (now : Nat) : String :=
  b64urlOfString headerJson004 ++ "." ++ b64urlOfString (claimsJson (audience u) sub now)

/-- The unsigned token of the `web-push-utils.ts` copy. -/
def unsignedTokenWpu (u : UrlParts) (sub : String) (now : Nat) : String :=
  b64urlOfString headerJsonWpu ++ "." ++ b64urlOfString (claimsJson (audience u) sub now)

/-- C6: the JWT header is the fixed two-field ES256/JWT object and the
claims are exactly `aud` = scheme+host of the endpoint (origin only —
two endpoints differing only in path give byte-identical header and
claims segments), `exp` = generation time + 12 hours, `sub` = the
subject; the segments are a pure function of origin, subject and
timestamp. -/
theorem vapid_jwt_segments :
    ∀ (prot host p1 p2 sub : String) (t : Nat),
      unsignedToken004 ⟨prot, host, p1⟩ sub t = unsignedToken004 ⟨prot, host, p2⟩ sub t ∧
      unsignedTokenWpu ⟨prot, host, p1⟩ sub t = unsignedTokenWpu ⟨prot, host, p2⟩ sub t ∧
      audience ⟨prot, host, p1⟩ = prot ++ "//" ++ host ∧
      claimsJson (audience ⟨prot, host, p1⟩) sub t =
        "\x7b\"aud\":\"" ++ (prot ++ "//" ++ host) ++ "\",\"exp\":" ++
          toString (t + 43200) ++ ",\"sub\":\"" ++ sub ++ "\"\x7d" ∧
      headerJson004 = "\x7b\"typ\":\"JWT\",\"alg\":\"ES256\"\x7d" ∧
      headerJsonWpu = "\x7b\"alg\":\"ES256\",\"typ\":\"JWT\"\x7d" := by
  intro prot host p1 p2 sub t
  exact ⟨rfl, rfl, rfl, rfl, rfl, rfl⟩

/-! ## Delivery dispatch and outcome classification

`sendWebPush` in `web-push-utils.ts` is a `try`-block sequencing URL
parsing, JWT creation, payload encryption and the `fetch`; each step's
success or thrown error is an explicit `Except` input here, and the
`catch` is the error branches. -/

structure HttpResponse where
  status : Nat
  body : String
  statusText : String

structure SendResult where
  success : Bool
  status : Option Nat
  error : Option String
deriving DecidableEq

/-- The fallible steps of one `sendWebPush` call. -/
structure SendEnv where
  parseUrl : Except String UrlParts
  jwt : Except String String
  encrypted : Except String Bytes
  fetch : Except String HttpResponse

/-- `Response.ok`: status in the inclusive range 200–299. -/
def respOk (s : Nat) : Bool := 200 ≤ s && s ≤ 299

/-- `sendWebPush` of `web-push-utils.ts`: any thrown error is caught
and returned as `success: false` with the error message; a response is
a success iff `response.ok || response.status === 201`, otherwise the
status and the body text (falling back to `statusText`) are returned. -/
def sendWebPush (env : SendEnv) : SendResult :=
  match env.parseUrl with
  | .error m => ⟨false, none, some m⟩
  | .ok _ =>
    match env.jwt with
    | .error m => ⟨false, none, some m⟩
    | .ok _ =>
      match env.encrypted with
      | .error m => ⟨false, none, some m⟩
      | .ok _ =>
        match env.fetch with
        | .error m => ⟨false, none, some m⟩
        | .ok r =>
          if respOk r.status || r.status == 201 then ⟨true, some r.status, none⟩
          else ⟨false, some r.status,
                some (if r.body ≠ "" then r.body else r.statusText)⟩

inductive Outcome where
  | delivered
  | expired
  | transient
deriving DecidableEq

/-- The per-subscription classification of the `send-push-notification`
caller (part_003 handler): `result.success` counts as sent; otherwise
status 404 or 410 marks the subscription expired (queued for deletion);
anything else is a plain failure. -/
def classify003 (r : SendResult) : Outcome :=
  if r.success then .delivered
  else if r.status = some 404 ∨ r.status = some 410 then .expired
  else .transient

/-- The endpoints the part_003 handler queues for deletion. -/
def part003Expired (l : List (String × SendResult)) : List String :=
  (l.filter fun p =>
    !p.2.success && (p.2.status == some 404 || p.2.status == some 410)).map Prod.fst

/-! The `index.ts` copy: its local `sendWebPush` throws
`Push failed: <status> <body>` on a non-ok response, and the handler
classifies a rejected send as an expired subscription when the
rejection reason contains `404`, `410` or `expired`. -/

/-- The error message thrown by the `index.ts` sender. -/
def pushFailMsg (status : Nat) (body : String) : String :=
  "Push failed: " ++ toString status ++ " " ++ body

/-- The `index.ts` sender: fulfilled on `response.ok`, rejected with
the thrown message otherwise (a transport exception rejects with its
own message). -/
def sendWebPushIdx (f : Except String HttpResponse) : Except String Unit :=
  match f with
  | .error m => .error m
  | .ok r => if respOk r.status then .ok () else .error (pushFailMsg r.status r.body)

def leadsWith : List Char → List Char → Bool
  | _, [] => true
  | [], _ :: _ => false
  | a :: l, b :: p => a == b && leadsWith l p

def containsSeq : List Char → List Char → Bool
  | [], p => leadsWith [] p
  | a :: t, p => leadsWith (a :: t) p || containsSeq t p

/-- `String.includes` (substring test). -/
def strContains (s pat : String) : Bool := containsSeq s.toList pat.toList

/-- The `index.ts` cleanup predicate on a rejection reason. -/
def expiredReason (m : String) : Bool :=
  strContains m "404" || strContains m "410" || strContains m "expired"

/-- Classification a rejected/fulfilled send receives in `index.ts`:
fulfilled counts as delivered; a rejection whose reason matches the
cleanup predicate marks the subscription expired (deleted); any other
rejection is a plain failure. -/
def classifyIdx (f : Except String HttpResponse) : Outcome :=
  match sendWebPushIdx f with
  | .ok _ => .delivered
  | .error m => if expiredReason m then .expired else .transient

/-! ## Fan-out (`Promise.allSettled` in `index.ts` / part_002) -/

def isFulfilled : Except String Unit → Bool
  | .ok _ => true
  | .error _ => false

/-- The fan-out aggregation of the `index.ts` handler over one
notification's subscriptions (endpoint paired with its send outcome):
all-settled results, the fulfilled and rejected counts reported in the
response, and the endpoints queued for deletion. -/
def fanout (l : List (String × Except String HttpResponse)) :
    Nat × Nat × List String :=
  let results := l.map fun p => sendWebPushIdx p.2
  ((results.filter isFulfilled).length,
   (results.filter fun r => !isFulfilled r).length,
   (l.filter fun p =>
      match sendWebPushIdx p.2 with
      | .error m => expiredReason m
      | .ok _ => false).map Prod.fst)

/-! ### Substring lemmas for the reason-string matching -/

lemma leadsWith_append (p y : List Char) : leadsWith (p ++ y) p = true := by
  induction p with
  | nil =>
    simp only [List.nil_append]
    cases y <;> rfl
  | cons a t ih => simp [leadsWith, ih]

lemma containsSeq_of_append (x p y : List Char) :
    containsSeq (x ++ (p ++ y)) p = true := by
  induction x with
  | nil =>
    simp only [List.nil_append]
    cases p with
    | nil =>
      cases y with
      | nil => rfl
      | cons b t => simp [containsSeq, leadsWith]
    | cons b t => simp [containsSeq, leadsWith, leadsWith_append]
  | cons a t ih => simp [containsSeq, ih]

lemma pushFailMsg_contains_status (body : String) :
    strContains (pushFailMsg 404 body) "404" = true ∧
      strContains (pushFailMsg 410 body) "410" = true := by
  have h404 : toString (404 : Nat) = "404" := by decide
  have h410 : toString (410 : Nat) = "410" := by decide
  constructor
  · unfold strContains pushFailMsg
    rw [h404]
    have hsplit : ("Push failed: " ++ "404" ++ " " ++ body).toList =
        "Push failed: ".toList ++ ("404".toList ++ (" ".toList ++ body.toList)) := by
      simp [String.toList, List.append_assoc]
    rw [hsplit]
    exact containsSeq_of_append _ _ _
  · unfold strContains pushFailMsg
    rw [h410]
    have hsplit : ("Push failed: " ++ "410" ++ " " ++ body).toList =
        "Push failed: ".toList ++ ("410".toList ++ (" ".toList ++ body.toList)) := by
      simp [String.toList, List.append_assoc]
    rw [hsplit]
    exact containsSeq_of_append _ _ _

/-- C3 (amended): in the `web-push-utils.ts` sender with the part_003
caller, classification is exactly by status — 2xx delivered, 404/410
expired (the endpoint is queued for deletion exactly when the
classification is expired), any other non-2xx or a transport exception
a transient failure.  In the `index.ts` copy a 2xx response is
delivered and a 404/410 response is always classified expired, but a
rejected send is recognised as expired by substring-matching the error
message against `404`, `410`, `expired`, so other statuses are
transient only when the thrown message contains none of those
substrings. -/
theorem classify_outcomes :
    (∀ (u : UrlParts) (j : String) (b : Bytes) (r : HttpResponse),
      classify003 (sendWebPush ⟨.ok u, .ok j, .ok b, .ok r⟩) =
        (if 200 ≤ r.status ∧ r.status ≤ 299 then .delivered
         else if r.status = 404 ∨ r.status = 410 then .expired
         else .transient)) ∧
    (∀ (u : UrlParts) (j : String) (b : Bytes) (m : String),
      classify003 (sendWebPush ⟨.ok u, .ok j, .ok b, .error m⟩) = .transient) ∧
    (∀ (e : String) (r : SendResult),
      part003Expired [(e, r)] = if classify003 r = .expired then [e] else []) ∧
    (∀ r : HttpResponse, respOk r.status = true → classifyIdx (.ok r) = .delivered) ∧
    (∀ body st : String,
      classifyIdx (.ok ⟨404, body, st⟩) = .expired ∧
      classifyIdx (.ok ⟨410, body, st⟩) = .expired) ∧
    (∀ r : HttpResponse, respOk r.status = false →
      expiredReason (pushFailMsg r.status r.body) = false →
      classifyIdx (.ok r) = .transient) ∧
    (∀ m : String, expiredReason m = false → classifyIdx (.error m) = .transient) := by
  refine ⟨?_, ?_, ?_, ?_, ?_, ?_, ?_⟩
  · intro u j b r
    by_cases h2 : 200 ≤ r.status ∧ r.status ≤ 299
    · have hb : (respOk r.status || (r.status == 201)) = true := by
        simp [respOk]
        omega
      simp [sendWebPush, hb, classify003, h2]
    · have hb : (respOk r.status || (r.status == 201)) = false := by
        simp [respOk]
        omega
      simp [sendWebPush, hb, classify003, h2]
  · intro u j b m
    simp [sendWebPush, classify003]
  · intro e r
    rcases r with ⟨suc, st, err⟩
    cases suc
    · by_cases hst : st = some 404 ∨ st = some 410
      · simp only [part003Expired, classify003, List.filter_cons]
        rcases hst with h | h <;> simp [h]
      · have h1 : ¬ st = some 404 := fun h => hst (Or.inl h)
        have h2 : ¬ st = some 410 := fun h => hst (Or.inr h)
        simp [part003Expired, classify003, List.filter_cons, hst, h1, h2]
    · simp [part003Expired, classify003, List.filter_cons]
  · intro r h
    simp [classifyIdx, sendWebPushIdx, h]
  · intro body st
    have hmsg := pushFailMsg_contains_status body
    constructor
    · have hro : respOk 404 = false := by decide
      simp [classifyIdx, sendWebPushIdx, hro, expiredReason, hmsg.1]
    · have hro : respOk 410 = false := by decide
      simp [classifyIdx, sendWebPushIdx, hro, expiredReason, hmsg.2]
  · intro r h1 h2
    simp [classifyIdx, sendWebPushIdx, h1, h2]
  · intro m h
    simp [classifyIdx, sendWebPushIdx, h]

/-- Witness for C3 (amended), covering the spec's concrete scenarios: a
500 response with body `server error` is transient in both copies, a
410 response is expired in both, a 201 response is delivered in both. -/
theorem classify_outcomes_witness :
    (respOk 500 = false ∧
        expiredReason (pushFailMsg 500 "server error") = false ∧
        respOk 201 = true) ∧
      classifyIdx (.ok ⟨500, "server error", ""⟩) = .transient ∧
      classify003 (sendWebPush ⟨.ok ⟨"https:", "push.example", "/x"⟩, .ok "jwt",
        .ok [1], .ok ⟨410, "", "Gone"⟩⟩) = .expired ∧
      classifyIdx (.ok ⟨201, "", ""⟩) = .delivered :=
  ⟨⟨by decide, by decide, by decide⟩,
    (classify_outcomes.2.2.2.2.2.1 ⟨500, "server error", ""⟩ (by decide) (by decide)),
    by
      have h := classify_outcomes.1 ⟨"https:", "push.example", "/x"⟩ "jwt" [1]
        ⟨410, "", "Gone"⟩
      rw [h]
      decide,
    classify_outcomes.2.2.2.1 ⟨201, "", ""⟩ (by decide)⟩

/-- C3 counterexample: in the `index.ts` copy a 500 response whose body
happens to contain the substring `404` is classified expired (and the
subscription deleted), where the claim requires a transient failure for
every non-2xx status other than 404 and 410. -/
theorem classifyIdx_substring_cex :
    classifyIdx (.ok ⟨500, "node 404 down", ""⟩) = .expired ∧
      ¬(200 ≤ 500 ∧ (500 : Nat) ≤ 299) ∧ (500 : Nat) ≠ 404 ∧ (500 : Nat) ≠ 410 := by
  refine ⟨by decide, by decide, by decide, by decide⟩

/-- C9: the fan-out counts every subscription exactly once (fulfilled
plus rejected equals the number of subscriptions, under all-settled
semantics where each send's outcome is recorded independently), and in
the concrete 3-subscription scenario — one 410, two 201 — the handler
reports 2 sent, 1 failed, and queues exactly the 410 endpoint for
deletion. -/
theorem fanout_reports_all :
    (∀ l : List (String × Except String HttpResponse),
      (fanout l).1 + (fanout l).2.1 = l.length) ∧
    fanout [("a", .ok ⟨201, "", ""⟩), ("b", .ok ⟨410, "", ""⟩), ("c", .ok ⟨201, "", ""⟩)] =
      (2, 1, ["b"]) := by
  constructor
  · intro l
    have key : ∀ res : List (Except String Unit),
        (res.filter isFulfilled).length +
          (res.filter fun r => !isFulfilled r).length = res.length := by
      intro res
      induction res with
      | nil => rfl
      | cons a t ih =>
        cases h : isFulfilled a <;> simp [List.filter_cons, h] <;> omega
    simp only [fanout]
    rw [key]
    simp
  · decide

/-- C10: `sendWebPush` returns a `SendResult` on every path — it
succeeds exactly when every stage succeeded and the response status is
2xx (the `|| status === 201` disjunct is subsumed by `response.ok`),
carries the HTTP status whenever a response was received, and on every
failure carries an error message. -/
theorem sendWebPush_total_spec :
    ∀ env : SendEnv,
      ((sendWebPush env).success = true ↔
        (∃ u, env.parseUrl = .ok u) ∧ (∃ j, env.jwt = .ok j) ∧
        (∃ b, env.encrypted = .ok b) ∧
        ∃ r, env.fetch = .ok r ∧ 200 ≤ r.status ∧ r.status ≤ 299) ∧
      ((sendWebPush env).success = false → (sendWebPush env).error.isSome = true) ∧
      (∀ r, env.fetch = .ok r → (∃ u, env.parseUrl = .ok u) →
        (∃ j, env.jwt = .ok j) → (∃ b, env.encrypted = .ok b) →
        (sendWebPush env).status = some r.status) := by
  intro env
  rcases env with ⟨pu, j, e, f⟩
  cases pu with
  | error m => simp [sendWebPush]
  | ok u =>
    cases j with
    | error m => simp [sendWebPush]
    | ok jv =>
      cases e with
      | error m => simp [sendWebPush]
      | ok ev =>
        cases f with
        | error m => simp [sendWebPush]
        | ok r =>
          by_cases h2 : 200 ≤ r.status ∧ r.status ≤ 299
          · have hb : (respOk r.status || (r.status == 201)) = true := by
              simp [respOk]
              omega
            simp [sendWebPush, hb, h2]
          · have hb : (respOk r.status || (r.status == 201)) = false := by
              simp [respOk]
              omega
            simp [sendWebPush, hb, h2]

/-- Witness for C10: a 500 response with empty body and status text
still returns a result with `success = false` and an error present. -/
theorem sendWebPush_total_spec_witness :
    (sendWebPush ⟨.ok ⟨"https:", "push.example", "/x"⟩, .ok "jwt", .ok [1],
        .ok ⟨500, "", ""⟩⟩).success = false ∧
      (sendWebPush ⟨.ok ⟨"https:", "push.example", "/x"⟩, .ok "jwt", .ok [1],
        .ok ⟨500, "", ""⟩⟩).error.isSome = true :=
  ⟨by decide,
    (sendWebPush_total_spec ⟨.ok ⟨"https:", "push.example", "/x"⟩, .ok "jwt", .ok [1],
      .ok ⟨500, "", ""⟩⟩).2.1 (by decide)⟩

end BarberPush
